import Mathlib

/-!
Shallow embedding of the batch image-analysis processor
(`src/index.js`, class `ImageBatchProcessor`) together with the
configuration loader (`CONFIG`, src/index.js:13-44) and the persisted
artifact produced by `saveResults` (src/index.js:228-249).

External effects are modelled explicitly:
* the process environment is an `Env` record of optional strings;
* `fs.readdir` is an `Except String (List String)` parameter;
* one combined encode-plus-remote-call attempt (`imageToBase64` followed by
  `openai.chat.completions.create`, both inside the single `try` of
  `analyzeImage`, src/index.js:81-104) is an oracle
  `Nat → Except String ApiResponse` giving each attempt's result;
* promise-settlement order inside a concurrency window is an arbitrary
  permutation chosen by a `sched` parameter;
* `fs.writeFile` success or failure is an `Except String Unit` parameter;
* `new Date().toISOString()` is a `now : String` parameter.
-/

namespace ImageRec

/-! ### JavaScript numeric and string coercion primitives -/

/-- Numeric value of a hexadecimal digit character, `none` otherwise. -/
def hexDigitVal (c : Char) : Option Nat :=
  if c.isDigit then some (c.toNat - '0'.toNat)
  else if 'a' ≤ c ∧ c ≤ 'f' then some (c.toNat - 'a'.toNat + 10)
  else if 'A' ≤ c ∧ c ≤ 'F' then some (c.toNat - 'A'.toNat + 10)
  else none

/-- Horner evaluation of a digit list in the given base. -/
def digitsToNat (base : Nat) (ds : List Nat) : Nat :=
  ds.foldl (fun acc d => acc * base + d) 0

/-- JavaScript `parseInt(x)` (radix argument omitted, as in
src/index.js:30,33,36): skip leading whitespace, take an optional single
sign, recognise a `0x`/`0X` prefix as hexadecimal, then read the longest
digit run; `none` models `NaN` (no digits at all, or the argument being
`undefined`). -/
def parseIntJS (v : Option String) : Option Int :=
  match v with
  | none => none
  | some s =>
    let cs0 := s.data.dropWhile Char.isWhitespace
    let sign : Int := match cs0 with
      | '-' :: _ => -1
      | _ => 1
    let cs1 := match cs0 with
      | '-' :: rest => rest
      | '+' :: rest => rest
      | rest => rest
    match cs1 with
    | '0' :: 'x' :: rest =>
      let ds := rest.takeWhile (fun c => (hexDigitVal c).isSome)
      if ds = [] then none
      else some (sign * Int.ofNat (digitsToNat 16 (ds.filterMap hexDigitVal)))
    | '0' :: 'X' :: rest =>
      let ds := rest.takeWhile (fun c => (hexDigitVal c).isSome)
      if ds = [] then none
      else some (sign * Int.ofNat (digitsToNat 16 (ds.filterMap hexDigitVal)))
    | _ =>
      let ds := cs1.takeWhile Char.isDigit
      if ds = [] then none
      else some (sign * Int.ofNat (digitsToNat 10 (ds.map (fun c => c.toNat - '0'.toNat))))

/-- JavaScript `parseInt(x) || d`: `NaN` (here `none`) and `0` (also `-0`)
are falsy, every other number is kept. -/
def jsOrInt (v : Option Int) (d : Int) : Int :=
  match v with
  | none => d
  | some n => if n = 0 then d else n

/-- JavaScript `x || d` for an environment variable: `undefined` and the
empty string are falsy. -/
def jsOrString (v : Option String) (d : String) : String :=
  match v with
  | none => d
  | some s => if s = "" then d else s

/-! ### Environment and configuration (src/index.js:13-44) -/

/-- The process environment. `index.js` reads exactly the first eight
variables; `MAX_RETRIES` and `RETRY_DELAY` may be present in the
environment but are never read by the code. -/
structure Env where
  OPENAI_API_KEY : Option String
  MODEL : Option String
  IMAGES_DIR : Option String
  OUTPUT_FILE : Option String
  PROMPT : Option String
  MAX_TOKENS : Option String
  CONCURRENCY : Option String
  BATCH_DELAY : Option String
  MAX_RETRIES : Option String
  RETRY_DELAY : Option String
deriving DecidableEq

/-- The configuration record consumed by `ImageBatchProcessor`. -/
structure Config where
  apiKey : Option String
  model : String
  imagesDir : String
  outputFile : String
  prompt : String
  maxTokens : Int
  concurrency : Int
  batchDelay : Int
  imageExtensions : List String
  maxRetries : Nat
  retryDelay : Nat
deriving DecidableEq

/-- The `CONFIG` object literal (src/index.js:13-44). `maxRetries` and
`retryDelay` are the literal constants `3` and `2000` (src/index.js:42-43);
no environment variable is consulted for them. -/
def mkCONFIG (env : Env) : Config where
  apiKey := env.OPENAI_API_KEY
  model := jsOrString env.MODEL "gpt-4o"
  imagesDir := jsOrString env.IMAGES_DIR "./images"
  outputFile := jsOrString env.OUTPUT_FILE "./results.json"
  prompt := jsOrString env.PROMPT
    "Describe this image in detail, including any text, objects, people, and activities visible."
  maxTokens := jsOrInt (parseIntJS env.MAX_TOKENS) 500
  concurrency := jsOrInt (parseIntJS env.CONCURRENCY) 5
  batchDelay := jsOrInt (parseIntJS env.BATCH_DELAY) 1000
  imageExtensions := [".jpg", ".jpeg", ".png", ".gif", ".webp"]
  maxRetries := 3
  retryDelay := 2000

/-- The falsiness test `!this.config.apiKey` (src/index.js:188): an absent
variable and the empty string are both falsy. -/
def apiKeyFalsy (v : Option String) : Bool :=
  match v with
  | none => true
  | some s => s == ""

/-- Follows the words of spec §6, which lists `maxRetries (default 3)`
among the recognized configuration options consumed like the others, i.e.
overridable from the environment with the default applying only when no
value is supplied. Defined solely to compare against `mkCONFIG`. -/
def specSurfaceMaxRetries (env : Env) : Int :=
  jsOrInt (parseIntJS env.MAX_RETRIES) 3

/-- Follows the words of spec §6 for `retryDelay ms (default 2000)`;
companion of `specSurfaceMaxRetries`. -/
def specSurfaceRetryDelay (env : Env) : Int :=
  jsOrInt (parseIntJS env.RETRY_DELAY) 2000

/-! ### Data model: outcomes as built by `analyzeImage` (src/index.js:106-129) -/

/-- Raw token-usage object of the remote response, stored verbatim in the
result record (`usage: response.usage`, src/index.js:112); its fields are
the provider's snake_case names, as witnessed by `r.usage?.total_tokens`
in src/index.js:263 and src/extract-descriptions.js:63. -/
structure Usage where
  prompt_tokens : Int
  completion_tokens : Int
  total_tokens : Int
deriving DecidableEq

/-- The success object literal of src/index.js:106-114 (minus the
`success: true` tag, carried by the `Outcome` constructor). -/
structure SuccessRecord where
  image : String
  path : String
  description : String
  model : String
  usage : Option Usage
  timestamp : String
deriving DecidableEq

/-- The failure object literal of src/index.js:123-129 (minus the
`success: false` tag). -/
structure FailureRecord where
  image : String
  path : String
  error : String
  timestamp : String
deriving DecidableEq

/-- One settled per-item outcome: the tagged union distinguished by the
`success` boolean field in the source records. -/
inductive Outcome where
  | success : SuccessRecord → Outcome
  | failure : FailureRecord → Outcome
deriving DecidableEq

/-- Shape of a successful remote analysis response as consumed by
src/index.js:110-112: `choices[0].message.content`, `model`, `usage`. -/
structure ApiResponse where
  description : String
  model : String
  usage : Option Usage
deriving DecidableEq

/-- Node's `path.basename` for forward-slash paths (src/index.js:107): the
characters after the last slash. (Node also strips a trailing slash, which
cannot occur here: the function is only applied to `dir ++ "/" ++ file`
paths and plain file names.) -/
def basename (p : String) : String :=
  String.mk ((p.data.reverse.takeWhile (fun c => c ≠ '/')).reverse)

/-- JavaScript `String.prototype.toLowerCase` on the ASCII extensions this
program compares (src/index.js:140). -/
def jsToLower (s : String) : String :=
  String.mk (s.data.map Char.toLower)

/-- Node's `path.extname`: the suffix of the basename from its last dot;
empty when there is no dot or the only candidate dot is the leading
character of the basename (src/index.js:140). -/
def extname (p : String) : String :=
  let cs := (basename p).data
  let tailAfter := (cs.reverse.takeWhile (fun c => c ≠ '.')).reverse
  if tailAfter.length = cs.length then ""
  else if tailAfter.length + 1 = cs.length ∧ cs.headD ' ' = '.' then ""
  else String.mk ('.' :: tailAfter)

/-- The success record returned at src/index.js:106-114. -/
def successOf (imagePath : String) (resp : ApiResponse) (now : String) : SuccessRecord :=
  { image := basename imagePath
    path := imagePath
    description := resp.description
    model := resp.model
    usage := resp.usage
    timestamp := now }

/-- The failure record returned at src/index.js:123-129, carrying the
message of the error thrown by the final attempt. -/
def failureOf (imagePath : String) (errMsg : String) (now : String) : FailureRecord :=
  { image := basename imagePath
    path := imagePath
    error := errMsg
    timestamp := now }

/-! ### Retry wrapper: `analyzeImage` (src/index.js:80-131) -/

/-- Result of one full `analyzeImage` call: the outcome it resolves to,
how many encode-plus-remote attempts it made, and the list of retry
delays (in ms) it slept between attempts. -/
structure RetryRun where
  outcome : Outcome
  attempts : Nat
  delays : List Nat
deriving DecidableEq

/-- Recursion core of `analyzeImage`. `budget = cfg.maxRetries - retryCount`
counts the retries still allowed; the source's guard
`retryCount < this.config.maxRetries` (src/index.js:117) holds exactly when
the budget is nonzero. Structural recursion on the budget replaces the
source's self-call with `retryCount + 1`. -/
def analyzeImageGo (cfg : Config) (imagePath : String)
    (attempt : Nat → Except String ApiResponse) (now : String) :
    Nat → Nat → RetryRun
  | 0, rc =>
    match attempt rc with
    | Except.ok resp =>
      { outcome := Outcome.success (successOf imagePath resp now), attempts := 1, delays := [] }
    | Except.error e =>
      { outcome := Outcome.failure (failureOf imagePath e now), attempts := 1, delays := [] }
  | budget + 1, rc =>
    match attempt rc with
    | Except.ok resp =>
      { outcome := Outcome.success (successOf imagePath resp now), attempts := 1, delays := [] }
    | Except.error _ =>
      let r := analyzeImageGo cfg imagePath attempt now budget (rc + 1)
      { outcome := r.outcome, attempts := r.attempts + 1, delays := cfg.retryDelay :: r.delays }

/-- `analyzeImage(imagePath, retryCount)` (src/index.js:80-131). The
`attempt` oracle returns, for each attempt index, either the parsed remote
response or the message of whatever `imageToBase64` or the API call threw.
The function always resolves to a `RetryRun` value (never propagates an
error): the catch block either recurses or returns the failure record. -/
def analyzeImage (cfg : Config) (imagePath : String)
    (attempt : Nat → Except String ApiResponse) (now : String) (retryCount : Nat) : RetryRun :=
  analyzeImageGo cfg imagePath attempt now (cfg.maxRetries - retryCount) retryCount

/-! ### Item source: `getImageFiles` (src/index.js:136-148) -/

/-- Node's `path.join(dir, file)` for the simple two-segment case used at
src/index.js:144. -/
def joinPath (dir file : String) : String :=
  dir ++ "/" ++ file

/-- `getImageFiles` (src/index.js:136-148): filter the directory listing by
recognized extension (case-insensitive) and prefix each name with the
images directory; a `readdir` failure is rethrown with the fatal message of
src/index.js:146. -/
def getImageFiles (cfg : Config) (readdir : Except String (List String)) :
    Except String (List String) :=
  match readdir with
  | Except.error e => Except.error ("Failed to read images directory: " ++ e)
  | Except.ok files =>
    Except.ok ((files.filter
        (fun f => cfg.imageExtensions.contains (jsToLower (extname f)))).map
      (fun f => joinPath cfg.imagesDir f))

/-! ### Scheduler trace (the loop of `process`, src/index.js:208-216) -/

/-- Observable scheduling events of one run: a window of paths handed to
`processBatch`, one promise settling with its outcome, and the
`batchDelay` sleep between windows. -/
inductive Event where
  | dispatch : List String → Event
  | settle : String → Outcome → Event
  | interDelay : Nat → Event
deriving DecidableEq

/-- Events of one `processBatch(batch)` call (src/index.js:160-179): all
items of the window are dispatched at once, then each settles with the
outcome its `analyzeImage` promise resolves to; the settlement order is
whichever promise resolves first, modelled by the permutation `sched`. -/
def windowEvents (oracle : String → Outcome) (sched : List String → List String)
    (batch : List String) : List Event :=
  Event.dispatch batch :: (sched batch).map (fun it => Event.settle it (oracle it))

/-- The batch loop `for (let i = 0; i < imageFiles.length; i += concurrency)`
(src/index.js:208-216): slice the window `files.slice(i, i + K)`, await it,
then sleep `batchDelay` unless `i + K < files.length`. The structural `fuel`
bounds the number of iterations; `processTrace` supplies `files.length`,
which is enough because `i` grows by `K ≥ 1` per iteration (`K = 0` would be
an infinite loop in the source and cannot arise from `CONFIG`, whose
`concurrency` is never 0). -/
def processLoopFuel (K bd : Nat) (oracle : String → Outcome)
    (sched : List String → List String) (files : List String) :
    Nat → Nat → List Event
  | 0, _ => []
  | fuel + 1, i =>
    if i < files.length ∧ 0 < K then
      windowEvents oracle sched ((files.drop i).take K) ++
        ((if i + K < files.length then [Event.interDelay bd] else []) ++
          processLoopFuel K bd oracle sched files fuel (i + K))
    else []

/-- Full event trace of the batch loop started at cursor 0. -/
def processTrace (K bd : Nat) (oracle : String → Outcome)
    (sched : List String → List String) (files : List String) : List Event :=
  processLoopFuel K bd oracle sched files files.length 0

/-- Consecutive windows of size `K` (the last possibly shorter), fuelled for
structural termination. -/
def chunkWindowsFuel (K : Nat) : Nat → List String → List (List String)
  | 0, _ => []
  | fuel + 1, l =>
    if l ≠ [] ∧ 0 < K then l.take K :: chunkWindowsFuel K fuel (l.drop K)
    else []

/-- The sequence of window slices `files.slice(i, i + K)` taken by the batch
loop, as a standalone list-partition function. -/
def chunkWindows (K : Nat) (l : List String) : List (List String) :=
  chunkWindowsFuel K l.length l

/-! ### Aggregator (constructor src/index.js:50-53, settle handler 160-179) -/

/-- The mutable counters and collections of `ImageBatchProcessor`. -/
structure RunState where
  results : List SuccessRecord
  errors : List FailureRecord
  processedCount : Nat
  totalCount : Nat
deriving DecidableEq

/-- Constructor state (src/index.js:50-53) with `totalCount` already set to
the item count (src/index.js:195). -/
def initState (tc : Nat) : RunState :=
  { results := [], errors := [], processedCount := 0, totalCount := tc }

/-- Effect of one event on the run state: a settling promise increments
`processedCount` and appends its outcome to `results` or `errors`
(src/index.js:163-173); dispatches and delays change nothing. -/
def applyEvent (st : RunState) (ev : Event) : RunState :=
  match ev with
  | Event.settle _ out =>
    let st1 := { st with processedCount := st.processedCount + 1 }
    match out with
    | Outcome.success s => { st1 with results := st1.results ++ [s] }
    | Outcome.failure f => { st1 with errors := st1.errors ++ [f] }
  | _ => st

/-- Number of settle events in a trace. -/
def countSettles (tr : List Event) : Nat :=
  (tr.filter (fun ev =>
    match ev with
    | Event.settle _ _ => true
    | _ => false)).length

/-- Number of inter-window delay events in a trace. -/
def delayCount (tr : List Event) : Nat :=
  (tr.filter (fun ev =>
    match ev with
    | Event.interDelay _ => true
    | _ => false)).length

/-- The windows dispatched along a trace, in dispatch order. -/
def dispatchedWindows (tr : List Event) : List (List String) :=
  tr.filterMap (fun ev =>
    match ev with
    | Event.dispatch w => some w
    | _ => none)

/-- Change in the number of in-flight remote calls at one event: a dispatch
opens one call per window item, a settle closes one. -/
def outStep (n : Nat) (ev : Event) : Nat :=
  match ev with
  | Event.dispatch w => n + w.length
  | Event.settle _ _ => n - 1
  | Event.interDelay _ => n

/-- Number of remote calls in flight after a trace has run. -/
def outstandingAfter (tr : List Event) : Nat :=
  tr.foldl outStep 0

/-! ### Result persister: `saveResults` (src/index.js:228-249) -/

/-- The `metadata` object of the persisted document (src/index.js:230-237). -/
structure ArtifactMetadata where
  processedAt : String
  totalImages : Nat
  successfulCount : Nat
  errorCount : Nat
  model : String
  prompt : String
deriving DecidableEq

/-- The full `output` document written by `saveResults`
(src/index.js:229-240). -/
structure Artifact where
  metadata : ArtifactMetadata
  results : List SuccessRecord
  errors : List FailureRecord
deriving DecidableEq

/-- The document built by `saveResults` from the run state
(src/index.js:229-240). -/
def saveResults (cfg : Config) (st : RunState) (now : String) : Artifact :=
  { metadata :=
      { processedAt := now
        totalImages := st.totalCount
        successfulCount := st.results.length
        errorCount := st.errors.length
        model := cfg.model
        prompt := cfg.prompt }
    results := st.results
    errors := st.errors }

/-! ### JSON serialization (`JSON.stringify` at src/index.js:244 /
`JSON.parse` in src/extract-descriptions.js:51) -/

/-- JSON value tree; serialization is modelled at tree level, string
printing being injective on this fragment. -/
inductive Json where
  | str : String → Json
  | num : Int → Json
  | bool : Bool → Json
  | null : Json
  | arr : List Json → Json
  | obj : List (String × Json) → Json

/-- Top-level key list of a JSON object. -/
def Json.keys : Json → List String
  | Json.obj kvs => kvs.map Prod.fst
  | _ => []

/-- JSON form of the raw usage object (provider snake_case field names). -/
def encodeUsage (u : Usage) : Json :=
  Json.obj [("prompt_tokens", Json.num u.prompt_tokens),
            ("completion_tokens", Json.num u.completion_tokens),
            ("total_tokens", Json.num u.total_tokens)]

/-- JSON form of a success record, with the `success: true` tag restored in
source field order (src/index.js:106-114). -/
def encodeSuccess (s : SuccessRecord) : Json :=
  Json.obj [("image", Json.str s.image),
            ("path", Json.str s.path),
            ("success", Json.bool true),
            ("description", Json.str s.description),
            ("model", Json.str s.model),
            ("usage", match s.usage with
              | none => Json.null
              | some u => encodeUsage u),
            ("timestamp", Json.str s.timestamp)]

/-- JSON form of a failure record (src/index.js:123-129). -/
def encodeFailure (f : FailureRecord) : Json :=
  Json.obj [("image", Json.str f.image),
            ("path", Json.str f.path),
            ("success", Json.bool false),
            ("error", Json.str f.error),
            ("timestamp", Json.str f.timestamp)]

/-- JSON document written by `fs.writeFile` (src/index.js:242-246). -/
def encodeArtifact (a : Artifact) : Json :=
  Json.obj [("metadata", Json.obj
              [("processedAt", Json.str a.metadata.processedAt),
               ("totalImages", Json.num (Int.ofNat a.metadata.totalImages)),
               ("successfulCount", Json.num (Int.ofNat a.metadata.successfulCount)),
               ("errorCount", Json.num (Int.ofNat a.metadata.errorCount)),
               ("model", Json.str a.metadata.model),
               ("prompt", Json.str a.metadata.prompt)]),
            ("results", Json.arr (a.results.map encodeSuccess)),
            ("errors", Json.arr (a.errors.map encodeFailure))]

/-- Parse a usage object back from JSON. -/
def decodeUsage : Json → Option Usage
  | Json.obj [("prompt_tokens", Json.num p), ("completion_tokens", Json.num c),
              ("total_tokens", Json.num t)] =>
    some { prompt_tokens := p, completion_tokens := c, total_tokens := t }
  | _ => none

/-- Parse the `usage` field, which is either `null` or a usage object. -/
def decodeUsageOpt (j : Json) : Option (Option Usage) :=
  match j with
  | Json.null => some none
  | _ => (decodeUsage j).map some

/-- Parse one element of the `results` array. -/
def decodeSuccess : Json → Option SuccessRecord
  | Json.obj [("image", Json.str i), ("path", Json.str p), ("success", Json.bool true),
              ("description", Json.str d), ("model", Json.str m), ("usage", u),
              ("timestamp", Json.str t)] =>
    (decodeUsageOpt u).map (fun uo =>
      { image := i, path := p, description := d, model := m, usage := uo, timestamp := t })
  | _ => none

/-- Parse one element of the `errors` array. -/
def decodeFailure : Json → Option FailureRecord
  | Json.obj [("image", Json.str i), ("path", Json.str p), ("success", Json.bool false),
              ("error", Json.str e), ("timestamp", Json.str t)] =>
    some { image := i, path := p, error := e, timestamp := t }
  | _ => none

/-- Parse every element of a JSON array, failing if any element fails. -/
def decodeAll (dec : Json → Option α) : List Json → Option (List α)
  | [] => some []
  | j :: rest =>
    match dec j, decodeAll dec rest with
    | some a, some as => some (a :: as)
    | _, _ => none

/-- Parse the `metadata` object. -/
def decodeMetadata : Json → Option ArtifactMetadata
  | Json.obj [("processedAt", Json.str pa), ("totalImages", Json.num (Int.ofNat ti)),
              ("successfulCount", Json.num (Int.ofNat sc)),
              ("errorCount", Json.num (Int.ofNat ec)),
              ("model", Json.str m), ("prompt", Json.str pr)] =>
    some { processedAt := pa, totalImages := ti, successfulCount := sc,
           errorCount := ec, model := m, prompt := pr }
  | _ => none

/-- Re-parse a persisted artifact document. -/
def decodeArtifact : Json → Option Artifact
  | Json.obj [("metadata", mj), ("results", Json.arr rs), ("errors", Json.arr es)] =>
    match decodeMetadata mj, decodeAll decodeSuccess rs, decodeAll decodeFailure es with
    | some md, some successes, some failures =>
      some { metadata := md, results := successes, errors := failures }
    | _, _, _ => none
  | _ => none

/-! ### Run driver: `process` (src/index.js:184-223) and `main` (272-280) -/

/-- Result of a run that did not throw. -/
structure ProcessOk where
  state : RunState
  saved : Option Artifact
deriving DecidableEq

/-- `process()` (src/index.js:184-223). Returns the thrown fatal message or
the final state plus the persisted artifact, paired with the scheduler
trace that ran. A falsy API key throws before anything else; a `readdir`
failure propagates out of `getImageFiles`; zero matching files returns
early (src/index.js:197-200) without writing anything; otherwise the batch
loop runs, then `saveResults` persists (its `fs.writeFile` outcome is the
`writeRes` parameter, an error propagating as the run's fatal error). -/
def process (cfg : Config) (readdir : Except String (List String))
    (oracle : String → Outcome) (sched : List String → List String)
    (now : String) (writeRes : Except String Unit) :
    Except String ProcessOk × List Event :=
  if apiKeyFalsy cfg.apiKey then
    (Except.error "OPENAI_API_KEY is not set in environment variables", [])
  else
    match getImageFiles cfg readdir with
    | Except.error e => (Except.error e, [])
    | Except.ok imageFiles =>
      if imageFiles.length = 0 then
        (Except.ok { state := initState 0, saved := none }, [])
      else
        let tr := processTrace cfg.concurrency.toNat cfg.batchDelay.toNat oracle sched imageFiles
        let st := tr.foldl applyEvent (initState imageFiles.length)
        match writeRes with
        | Except.error e => (Except.error e, tr)
        | Except.ok _ =>
          (Except.ok { state := st, saved := some (saveResults cfg st now) }, tr)

/-- `main()` (src/index.js:272-280): exit code 0 and no fatal line on
success; `process.exit(1)` and the `Fatal error` console line when
`process()` rejects. -/
def main (cfg : Config) (readdir : Except String (List String))
    (oracle : String → Outcome) (sched : List String → List String)
    (now : String) (writeRes : Except String Unit) : Nat × Option String :=
  match (process cfg readdir oracle sched now writeRes).1 with
  | Except.ok _ => (0, none)
  | Except.error e => (1, some ("❌ Fatal error: " ++ e))

/-- Aggregator state after the first `n` events of a run's scheduler
trace: the fold of `applyEvent` from the constructor state. -/
def stateAt (K bd : Nat) (oracle : String → Outcome)
    (sched : List String → List String) (files : List String) (n : Nat) : RunState :=
  ((processTrace K bd oracle sched files).take n).foldl applyEvent
    (initState files.length)

/-! ### Concrete fixtures used by witness and counterexample theorems -/

/-- Environment carrying only an API key. -/
def envWithKey : Env :=
  ⟨some "k", none, none, none, none, none, none, none, none, none⟩

/-- Default configuration with an API key present. -/
def cfgWithKey : Config := mkCONFIG envWithKey

/-- Completely empty environment (no API key). -/
def envNoKey : Env :=
  ⟨none, none, none, none, none, none, none, none, none, none⟩

/-- Default configuration with the API key absent. -/
def cfgNoKey : Config := mkCONFIG envNoKey

/-- Environment that also sets `MAX_RETRIES=7` and `RETRY_DELAY=50`. -/
def envRetryOverride : Env :=
  ⟨some "k", none, none, none, none, none, none, none, some "7", some "50"⟩

/-- Environment whose numeric options are `0`, non-numeric, and hex zero. -/
def envZeroNumeric : Env :=
  ⟨some "k", none, none, none, none, some "0", some "abc", some "0x0", none, none⟩

/-- A sample successful remote response. -/
def exampleResponse : ApiResponse := ⟨"desc", "gpt-4o", some ⟨1, 2, 3⟩⟩

/-- Attempt oracle failing twice, then succeeding. -/
def exampleAttempt : Nat → Except String ApiResponse :=
  fun n => if n < 2 then Except.error ("boom" ++ toString n) else Except.ok exampleResponse

/-- Outcome oracle where every item succeeds at once. -/
def exampleOracle : String → Outcome :=
  fun p => Outcome.success (successOf p exampleResponse "T")

/-- Seven item paths, matching the spec's concrete scenario. -/
def sevenFiles : List String := ["a", "b", "c", "d", "e", "f", "g"]

/-- Sample success record. -/
def exampleSuccess : SuccessRecord := successOf "./images/a.jpg" exampleResponse "T"

/-- Sample failure record. -/
def exampleFailure : FailureRecord := failureOf "./images/a.jpg" "boom" "T"

/-- Final state of a one-item run in which the item succeeded. -/
def exampleState : RunState :=
  { results := [exampleSuccess], errors := [], processedCount := 1, totalCount := 1 }

/-- Result of that one-item run, artifact included. -/
def exampleOk : ProcessOk :=
  { state := exampleState, saved := some (saveResults cfgWithKey exampleState "T") }

/-- The artifact persisted by that run. -/
def exampleArtifact : Artifact := saveResults cfgWithKey exampleState "T"

/-! ### Retry wrapper lemmas -/

/-- Every `analyzeImageGo` call makes at least the initial attempt. -/
theorem analyzeImageGo_attempts_pos (cfg : Config) (p : String)
    (att : Nat → Except String ApiResponse) (now : String) :
    ∀ budget rc, 1 ≤ (analyzeImageGo cfg p att now budget rc).attempts := by
  intro budget
  induction budget with
  | zero =>
    intro rc
    cases h : att rc <;> simp [analyzeImageGo, h]
  | succ budget ih =>
    intro rc
    cases h : att rc <;> simp [analyzeImageGo, h]

/-- The attempt count never exceeds the remaining budget plus the initial
attempt. -/
theorem analyzeImageGo_attempts_le (cfg : Config) (p : String)
    (att : Nat → Except String ApiResponse) (now : String) :
    ∀ budget rc, (analyzeImageGo cfg p att now budget rc).attempts ≤ budget + 1 := by
  intro budget
  induction budget with
  | zero =>
    intro rc
    cases h : att rc <;> simp [analyzeImageGo, h]
  | succ budget ih =>
    intro rc
    cases h : att rc with
    | ok resp => simp [analyzeImageGo, h]
    | error e =>
      have := ih (rc + 1)
      simp only [analyzeImageGo, h]
      omega

/-- Exactly one fixed `retryDelay` sleep separates consecutive attempts. -/
theorem analyzeImageGo_delays (cfg : Config) (p : String)
    (att : Nat → Except String ApiResponse) (now : String) :
    ∀ budget rc, (analyzeImageGo cfg p att now budget rc).delays =
      List.replicate ((analyzeImageGo cfg p att now budget rc).attempts - 1) cfg.retryDelay := by
  intro budget
  induction budget with
  | zero =>
    intro rc
    cases h : att rc <;> simp [analyzeImageGo, h]
  | succ budget ih =>
    intro rc
    cases h : att rc with
    | ok resp => simp [analyzeImageGo, h]
    | error e =>
      have h1 := analyzeImageGo_attempts_pos cfg p att now budget (rc + 1)
      have h2 := ih (rc + 1)
      simp only [analyzeImageGo, h, h2]
      have h3 : (analyzeImageGo cfg p att now budget (rc + 1)).attempts + 1 - 1 =
          ((analyzeImageGo cfg p att now budget (rc + 1)).attempts - 1) + 1 := by omega
      rw [h3, List.replicate_succ]

/-- All attempts before the final one failed (the first success
short-circuits). -/
theorem analyzeImageGo_earlier_fail (cfg : Config) (p : String)
    (att : Nat → Except String ApiResponse) (now : String) :
    ∀ budget rc j, j + 1 < (analyzeImageGo cfg p att now budget rc).attempts →
      ∃ e, att (rc + j) = Except.error e := by
  intro budget
  induction budget with
  | zero =>
    intro rc j hj
    cases h : att rc <;> simp [analyzeImageGo, h] at hj
  | succ budget ih =>
    intro rc j hj
    cases h : att rc with
    | ok resp => simp [analyzeImageGo, h] at hj
    | error e =>
      simp only [analyzeImageGo, h] at hj
      cases j with
      | zero => exact ⟨e, by simpa using h⟩
      | succ j =>
        have := ih (rc + 1) j (by omega)
        simpa [Nat.add_assoc, Nat.add_comm 1 j] using this

/-- The final attempt determines the outcome: either it succeeded and the
run resolves to the corresponding success record, or the whole budget was
exhausted and the run resolves to a failure record carrying the message of
the last attempt. -/
theorem analyzeImageGo_final (cfg : Config) (p : String)
    (att : Nat → Except String ApiResponse) (now : String) :
    ∀ budget rc,
      (∃ resp, att (rc + ((analyzeImageGo cfg p att now budget rc).attempts - 1)) =
          Except.ok resp ∧
        (analyzeImageGo cfg p att now budget rc).outcome =
          Outcome.success (successOf p resp now)) ∨
      ((analyzeImageGo cfg p att now budget rc).attempts = budget + 1 ∧
       ∃ e, att (rc + budget) = Except.error e ∧
        (analyzeImageGo cfg p att now budget rc).outcome =
          Outcome.failure (failureOf p e now)) := by
  intro budget
  induction budget with
  | zero =>
    intro rc
    cases h : att rc with
    | ok resp => exact Or.inl ⟨resp, by simp [analyzeImageGo, h], by simp [analyzeImageGo, h]⟩
    | error e => exact Or.inr ⟨by simp [analyzeImageGo, h], e, by simpa using h,
        by simp [analyzeImageGo, h]⟩
  | succ budget ih =>
    intro rc
    cases h : att rc with
    | ok resp => exact Or.inl ⟨resp, by simp [analyzeImageGo, h], by simp [analyzeImageGo, h]⟩
    | error e =>
      have hpos := analyzeImageGo_attempts_pos cfg p att now budget (rc + 1)
      rcases ih (rc + 1) with ⟨resp, hatt, hout⟩ | ⟨hat, e2, hatt, hout⟩
      · refine Or.inl ⟨resp, ?_, ?_⟩
        · have harith :
            rc + 1 + ((analyzeImageGo cfg p att now budget (rc + 1)).attempts - 1) =
              rc + (analyzeImageGo cfg p att now budget (rc + 1)).attempts := by
            omega
          rw [harith] at hatt
          simpa [analyzeImageGo, h] using hatt
        · simpa [analyzeImageGo, h] using hout
      · refine Or.inr ⟨?_, e2, ?_, ?_⟩
        · simp [analyzeImageGo, h, hat]
        · simpa [Nat.add_assoc, Nat.add_comm 1 budget] using hatt
        · simpa [analyzeImageGo, h] using hout

/-! ### JSON round-trip lemmas -/

/-- Decoding inverts encoding on success records. -/
theorem decodeSuccess_encodeSuccess (s : SuccessRecord) :
    decodeSuccess (encodeSuccess s) = some s := by
  cases s with
  | mk i p d m u t => cases u <;> rfl

/-- Decoding inverts encoding on failure records. -/
theorem decodeFailure_encodeFailure (f : FailureRecord) :
    decodeFailure (encodeFailure f) = some f := by
  cases f
  rfl

/-- Decoding inverts encoding across the `results` array. -/
theorem decodeAll_encodeSuccess (l : List SuccessRecord) :
    decodeAll decodeSuccess (l.map encodeSuccess) = some l := by
  induction l with
  | nil => rfl
  | cons s rest ih => simp [decodeAll, decodeSuccess_encodeSuccess, ih]

/-- Decoding inverts encoding across the `errors` array. -/
theorem decodeAll_encodeFailure (l : List FailureRecord) :
    decodeAll decodeFailure (l.map encodeFailure) = some l := by
  induction l with
  | nil => rfl
  | cons f rest ih => simp [decodeAll, decodeFailure_encodeFailure, ih]

/-- A persisted artifact re-parses to itself. -/
theorem decodeArtifact_encodeArtifact (a : Artifact) :
    decodeArtifact (encodeArtifact a) = some a := by
  cases a with
  | mk md rs es =>
    cases md
    rw [encodeArtifact, decodeArtifact]
    rw [decodeAll_encodeSuccess, decodeAll_encodeFailure]
    rfl

/-! ### Generic fold helpers -/

/-- Folding over a truncated concatenation splits at the boundary. -/
theorem foldl_take_append {α β : Type} (f : β → α → β) (v : β) (a b : List α) (n : Nat) :
    ((a ++ b).take n).foldl f v =
      (b.take (n - a.length)).foldl f ((a.take n).foldl f v) := by
  rw [List.take_append_eq_append_take, List.foldl_append]

/-- A run of settle events reduces the in-flight count by its length. -/
theorem foldl_outStep_settles (s : List Event)
    (hs : ∀ ev ∈ s, ∃ it out, ev = Event.settle it out) :
    ∀ v, s.foldl outStep v = v - s.length := by
  induction s with
  | nil => intro v; simp
  | cons ev rest ih =>
    intro v
    obtain ⟨it, out, rfl⟩ := hs ev (by simp)
    have := ih (fun e he => hs e (by simp [he])) (v - 1)
    simp only [List.foldl_cons, outStep, this, List.length_cons]
    omega

/-- Every element of the settle block of a window is a settle event. -/
theorem windowEvents_tail_settles (oracle : String → Outcome)
    (sched : List String → List String) (batch : List String) :
    ∀ ev ∈ (sched batch).map (fun it => Event.settle it (oracle it)),
      ∃ it out, ev = Event.settle it out := by
  intro ev hev
  obtain ⟨it, _, rfl⟩ := List.mem_map.mp hev
  exact ⟨it, oracle it, rfl⟩

/-- After a whole window block settles, no call of it remains in flight. -/
theorem foldl_outStep_windowEvents (oracle : String → Outcome)
    (sched : List String → List String) (batch : List String)
    (hlen : (sched batch).length = batch.length) :
    (windowEvents oracle sched batch).foldl outStep 0 = 0 := by
  rw [windowEvents, List.foldl_cons]
  rw [foldl_outStep_settles _ (windowEvents_tail_settles oracle sched batch)]
  simp [outStep, hlen]

/-- Within a window block, at most `batch.length` calls are in flight. -/
theorem foldl_outStep_windowEvents_take (oracle : String → Outcome)
    (sched : List String → List String) (batch : List String) (n : Nat) :
    ((windowEvents oracle sched batch).take n).foldl outStep 0 ≤ batch.length := by
  cases n with
  | zero => simp
  | succ m =>
    rw [windowEvents, List.take_succ_cons, List.foldl_cons]
    have hsub : ∀ ev ∈ (((sched batch).map
        (fun it => Event.settle it (oracle it))).take m),
        ∃ it out, ev = Event.settle it out := by
      intro ev hev
      exact windowEvents_tail_settles oracle sched batch ev (List.mem_of_mem_take hev)
    rw [foldl_outStep_settles _ hsub]
    simp [outStep]

/-! ### Chunk-window lemmas -/

/-- The chunking function ignores any sufficient fuel. -/
theorem chunkWindowsFuel_congr (K : Nat) :
    ∀ f1 f2 l, l.length ≤ f1 → l.length ≤ f2 →
      chunkWindowsFuel K f1 l = chunkWindowsFuel K f2 l := by
  intro f1
  induction f1 with
  | zero =>
    intro f2 l h1 h2
    have : l = [] := List.length_eq_zero.mp (by omega)
    subst this
    cases f2 <;> simp [chunkWindowsFuel]
  | succ f1 ih =>
    intro f2 l h1 h2
    cases f2 with
    | zero =>
      have : l = [] := List.length_eq_zero.mp (by omega)
      subst this
      simp [chunkWindowsFuel]
    | succ g =>
      simp only [chunkWindowsFuel]
      by_cases hc : l ≠ [] ∧ 0 < K
      · rw [if_pos hc, if_pos hc]
        have hdrop : (l.drop K).length ≤ f1 := by
          rw [List.length_drop]; omega
        have hdrop2 : (l.drop K).length ≤ g := by
          rw [List.length_drop]
          have : 0 < l.length := List.length_pos.mpr hc.1
          have : 0 < K := hc.2
          omega
        rw [ih g (l.drop K) hdrop hdrop2]
      · rw [if_neg hc, if_neg hc]

/-- Chunking the empty list yields no windows. -/
theorem chunkWindows_nil (K : Nat) : chunkWindows K [] = [] := rfl

/-- Unfolding equation of `chunkWindows` on a nonempty list. -/
theorem chunkWindows_cons (K : Nat) (l : List String) (hK : 0 < K) (hl : l ≠ []) :
    chunkWindows K l = l.take K :: chunkWindows K (l.drop K) := by
  have hpos : 0 < l.length := List.length_pos.mpr hl
  obtain ⟨m, hm⟩ : ∃ m, l.length = m + 1 := ⟨l.length - 1, by omega⟩
  rw [chunkWindows, hm]
  simp only [chunkWindowsFuel, if_pos (And.intro hl hK)]
  rw [chunkWindows]
  have h1 : (l.drop K).length ≤ m := by
    rw [List.length_drop]; omega
  rw [chunkWindowsFuel_congr K m (l.drop K).length (l.drop K) h1 (Nat.le_refl _)]

/-- Concatenating the windows restores the original list. -/
theorem chunkWindows_join (K : Nat) (hK : 0 < K) :
    ∀ fuel l, l.length ≤ fuel → (chunkWindows K l).flatten = l := by
  intro fuel
  induction fuel with
  | zero =>
    intro l hl
    have : l = [] := List.length_eq_zero.mp (by omega)
    subst this
    simp [chunkWindows_nil]
  | succ fuel ih =>
    intro l hl
    by_cases hne : l = []
    · subst hne; simp [chunkWindows_nil]
    · rw [chunkWindows_cons K l hK hne]
      have hdrop : (l.drop K).length ≤ fuel := by
        have : 0 < l.length := List.length_pos.mpr hne
        rw [List.length_drop]; omega
      simp [ih (l.drop K) hdrop]

/-- Every window is nonempty and no longer than `K`. -/
theorem chunkWindows_sizes (K : Nat) (hK : 0 < K) :
    ∀ fuel l, l.length ≤ fuel →
      ∀ w ∈ chunkWindows K l, w ≠ [] ∧ w.length ≤ K := by
  intro fuel
  induction fuel with
  | zero =>
    intro l hl w hw
    have : l = [] := List.length_eq_zero.mp (by omega)
    subst this
    simp [chunkWindows_nil] at hw
  | succ fuel ih =>
    intro l hl w hw
    by_cases hne : l = []
    · subst hne; simp [chunkWindows_nil] at hw
    · rw [chunkWindows_cons K l hK hne] at hw
      rcases List.mem_cons.mp hw with rfl | hw'
      · constructor
        · simp [List.take_eq_nil_iff, hne]
          omega
        · simp [List.length_take]
      · have hdrop : (l.drop K).length ≤ fuel := by
          have : 0 < l.length := List.length_pos.mpr hne
          rw [List.length_drop]; omega
        exact ih (l.drop K) hdrop w hw'

/-- Chunking a nonempty list yields at least one window. -/
theorem chunkWindows_ne_nil (K : Nat) (l : List String) (hK : 0 < K) (hl : l ≠ []) :
    chunkWindows K l ≠ [] := by
  rw [chunkWindows_cons K l hK hl]
  exact List.cons_ne_nil _ _

/-- All windows except possibly the last have length exactly `K`. -/
theorem chunkWindows_dropLast (K : Nat) (hK : 0 < K) :
    ∀ fuel l, l.length ≤ fuel →
      ∀ w ∈ (chunkWindows K l).dropLast, w.length = K := by
  intro fuel
  induction fuel with
  | zero =>
    intro l hl w hw
    have : l = [] := List.length_eq_zero.mp (by omega)
    subst this
    simp [chunkWindows_nil] at hw
  | succ fuel ih =>
    intro l hl w hw
    by_cases hne : l = []
    · subst hne; simp [chunkWindows_nil] at hw
    · rw [chunkWindows_cons K l hK hne] at hw
      by_cases hrest : l.drop K = []
      · rw [hrest, chunkWindows_nil] at hw
        simp at hw
      · have hrw : chunkWindows K (l.drop K) ≠ [] :=
          chunkWindows_ne_nil K (l.drop K) hK hrest
        rw [List.dropLast_cons_of_ne_nil hrw] at hw
        rcases List.mem_cons.mp hw with rfl | hw'
        · have hlen : K < l.length := by
            by_contra hcon
            exact hrest (List.drop_eq_nil_of_le (by omega))
          simp [List.length_take]
          omega
        · have hdrop : (l.drop K).length ≤ fuel := by
            have : 0 < l.length := List.length_pos.mpr hne
            rw [List.length_drop]; omega
          exact ih (l.drop K) hdrop w hw'

/-! ### Trace observer distribution lemmas -/

/-- Dispatched windows distribute over trace concatenation. -/
theorem dispatchedWindows_append (a b : List Event) :
    dispatchedWindows (a ++ b) = dispatchedWindows a ++ dispatchedWindows b := by
  simp [dispatchedWindows, List.filterMap_append]

/-- A window block dispatches exactly its batch. -/
theorem dispatchedWindows_windowEvents (oracle : String → Outcome)
    (sched : List String → List String) (batch : List String) :
    dispatchedWindows (windowEvents oracle sched batch) = [batch] := by
  simp [dispatchedWindows, windowEvents, List.filterMap_map, Function.comp_def]

/-- Settle counting distributes over trace concatenation. -/
theorem countSettles_append (a b : List Event) :
    countSettles (a ++ b) = countSettles a + countSettles b := by
  simp [countSettles, List.filter_append]

/-- A window block settles one event per scheduled item. -/
theorem countSettles_windowEvents (oracle : String → Outcome)
    (sched : List String → List String) (batch : List String) :
    countSettles (windowEvents oracle sched batch) = (sched batch).length := by
  simp [countSettles, windowEvents, List.filter_map, Function.comp_def]

/-- Delay counting distributes over trace concatenation. -/
theorem delayCount_append (a b : List Event) :
    delayCount (a ++ b) = delayCount a + delayCount b := by
  simp [delayCount, List.filter_append]

/-- A window block contains no inter-window delay. -/
theorem delayCount_windowEvents (oracle : String → Outcome)
    (sched : List String → List String) (batch : List String) :
    delayCount (windowEvents oracle sched batch) = 0 := by
  simp [delayCount, windowEvents, List.filter_map, Function.comp_def]

/-- Folding a truncated run of delay events leaves the in-flight count
unchanged. -/
theorem foldl_outStep_delays (dl : List Event)
    (h : ∀ ev ∈ dl, ∃ d, ev = Event.interDelay d) (m : Nat) (v : Nat) :
    ((dl.take m).foldl outStep v) = v := by
  induction dl generalizing m v with
  | nil => simp
  | cons ev rest ih =>
    obtain ⟨d, rfl⟩ := h ev (by simp)
    cases m with
    | zero => simp
    | succ m =>
      rw [List.take_succ_cons, List.foldl_cons]
      exact ih (fun e he => h e (by simp [he])) m v

/-! ### Batch loop lemmas -/

/-- The loop dispatches exactly the consecutive `K`-sized slices of the
remaining items. -/
theorem processLoopFuel_windows (K bd : Nat) (oracle : String → Outcome)
    (sched : List String → List String) (files : List String) (hK : 0 < K) :
    ∀ fuel i, files.length - i ≤ fuel →
      dispatchedWindows (processLoopFuel K bd oracle sched files fuel i) =
        chunkWindows K (files.drop i) := by
  intro fuel
  induction fuel with
  | zero =>
    intro i hi
    have hdrop : files.drop i = [] := List.drop_eq_nil_of_le (by omega)
    simp [processLoopFuel, dispatchedWindows, hdrop, chunkWindows_nil]
  | succ fuel ih =>
    intro i hi
    by_cases h : i < files.length
    · have hne : files.drop i ≠ [] := by
        intro hcon
        have := List.drop_eq_nil_iff.mp hcon
        omega
      simp only [processLoopFuel, if_pos (And.intro h hK)]
      rw [dispatchedWindows_append, dispatchedWindows_append,
        dispatchedWindows_windowEvents]
      have hdel : dispatchedWindows
          (if i + K < files.length then [Event.interDelay bd] else []) = [] := by
        split <;> simp [dispatchedWindows]
      rw [hdel, ih (i + K) (by omega)]
      rw [chunkWindows_cons K (files.drop i) hK hne]
      rw [List.drop_drop]
      simp
    · have hdrop : files.drop i = [] := List.drop_eq_nil_of_le (by omega)
      simp [processLoopFuel, h, dispatchedWindows, hdrop, chunkWindows_nil]

/-- The loop settles exactly one outcome per remaining item. -/
theorem processLoopFuel_countSettles (K bd : Nat) (oracle : String → Outcome)
    (sched : List String → List String) (files : List String) (hK : 0 < K)
    (hsched : ∀ w : List String, (sched w).length = w.length) :
    ∀ fuel i, files.length - i ≤ fuel →
      countSettles (processLoopFuel K bd oracle sched files fuel i) =
        files.length - i := by
  intro fuel
  induction fuel with
  | zero =>
    intro i hi
    simp only [processLoopFuel, countSettles, List.filter_nil, List.length_nil]
    omega
  | succ fuel ih =>
    intro i hi
    by_cases h : i < files.length
    · simp only [processLoopFuel, if_pos (And.intro h hK)]
      rw [countSettles_append, countSettles_append, countSettles_windowEvents,
        hsched, ih (i + K) (by omega)]
      have hdel : countSettles
          (if i + K < files.length then [Event.interDelay bd] else []) = 0 := by
        split <;> simp [countSettles]
      rw [hdel]
      have hbatch : ((files.drop i).take K).length = min K (files.length - i) := by
        simp [List.length_take, List.length_drop]
      rw [hbatch]
      omega
    · simp only [processLoopFuel, countSettles]
      rw [if_neg (by omega)]
      simp only [List.filter_nil, List.length_nil]
      omega

/-- The loop sleeps exactly once between consecutive windows: one fewer
delay than there are windows. -/
theorem processLoopFuel_delayCount (K bd : Nat) (oracle : String → Outcome)
    (sched : List String → List String) (files : List String) (hK : 0 < K) :
    ∀ fuel i, files.length - i ≤ fuel →
      delayCount (processLoopFuel K bd oracle sched files fuel i) =
        (chunkWindows K (files.drop i)).length - 1 := by
  intro fuel
  induction fuel with
  | zero =>
    intro i hi
    have hdrop : files.drop i = [] := List.drop_eq_nil_of_le (by omega)
    simp [processLoopFuel, delayCount, hdrop, chunkWindows_nil]
  | succ fuel ih =>
    intro i hi
    by_cases h : i < files.length
    · have hne : files.drop i ≠ [] := by
        intro hcon
        have := List.drop_eq_nil_iff.mp hcon
        omega
      simp only [processLoopFuel, if_pos (And.intro h hK)]
      rw [delayCount_append, delayCount_append, delayCount_windowEvents,
        ih (i + K) (by omega)]
      rw [chunkWindows_cons K (files.drop i) hK hne, List.drop_drop]
      by_cases hik : i + K < files.length
      · have hner : files.drop (i + K) ≠ [] := by
          intro hcon
          have := List.drop_eq_nil_iff.mp hcon
          omega
        have hcl : chunkWindows K (files.drop (i + K)) ≠ [] :=
          chunkWindows_ne_nil K (files.drop (i + K)) hK hner
        have hpos : 0 < (chunkWindows K (files.drop (i + K))).length :=
          List.length_pos.mpr hcl
        rw [if_pos hik]
        simp only [delayCount, List.filter_cons, List.filter_nil, List.length_cons,
          List.length_nil, List.length]
        omega
      · have hdr : files.drop (i + K) = [] := List.drop_eq_nil_of_le (by omega)
        rw [if_neg hik, hdr, chunkWindows_nil]
        simp [delayCount]
    · have hdrop : files.drop i = [] := List.drop_eq_nil_of_le (by omega)
      simp [processLoopFuel, h, delayCount, hdrop, chunkWindows_nil]

/-- At every point of the loop's trace, at most `K` analysis calls are in
flight. -/
theorem processLoopFuel_outstanding (K bd : Nat) (oracle : String → Outcome)
    (sched : List String → List String) (files : List String) (hK : 0 < K)
    (hsched : ∀ w : List String, (sched w).length = w.length) :
    ∀ fuel i n, files.length - i ≤ fuel →
      ((processLoopFuel K bd oracle sched files fuel i).take n).foldl outStep 0 ≤ K := by
  intro fuel
  induction fuel with
  | zero =>
    intro i n hi
    simp [processLoopFuel]
  | succ fuel ih =>
    intro i n hi
    by_cases h : i < files.length
    · simp only [processLoopFuel, if_pos (And.intro h hK)]
      rw [foldl_take_append]
      by_cases hn : n ≤ (windowEvents oracle sched ((files.drop i).take K)).length
      · have hrest : n - (windowEvents oracle sched ((files.drop i).take K)).length = 0 := by
          omega
        rw [hrest, List.take_zero, List.foldl_nil]
        calc ((windowEvents oracle sched ((files.drop i).take K)).take n).foldl outStep 0
            ≤ ((files.drop i).take K).length :=
              foldl_outStep_windowEvents_take oracle sched _ n
          _ ≤ K := by simp [List.length_take]
      · push_neg at hn
        have hfull : (windowEvents oracle sched ((files.drop i).take K)).take n =
            windowEvents oracle sched ((files.drop i).take K) :=
          List.take_of_length_le (by omega)
        rw [hfull, foldl_outStep_windowEvents oracle sched _ (hsched _)]
        rw [foldl_take_append]
        have hdl : ∀ ev ∈ (if i + K < files.length then [Event.interDelay bd] else []),
            ∃ d, ev = Event.interDelay d := by
          split <;> simp
        rw [foldl_outStep_delays _ hdl]
        exact ih (i + K) _ (by omega)
    · simp [processLoopFuel, h]

/-- When the loop dispatches a window, every previously dispatched call has
already settled: the in-flight count is zero at each dispatch event. -/
theorem processLoopFuel_dispatch_zero (K bd : Nat) (oracle : String → Outcome)
    (sched : List String → List String) (files : List String) (hK : 0 < K)
    (hsched : ∀ w : List String, (sched w).length = w.length) :
    ∀ fuel i n w, files.length - i ≤ fuel →
      (processLoopFuel K bd oracle sched files fuel i)[n]? = some (Event.dispatch w) →
      ((processLoopFuel K bd oracle sched files fuel i).take n).foldl outStep 0 = 0 := by
  intro fuel
  induction fuel with
  | zero =>
    intro i n w hi hget
    simp [processLoopFuel] at hget
  | succ fuel ih =>
    intro i n w hi hget
    by_cases h : i < files.length
    · simp only [processLoopFuel, if_pos (And.intro h hK)] at hget ⊢
      by_cases hn : n < (windowEvents oracle sched ((files.drop i).take K)).length
      · rw [List.getElem?_append_left hn] at hget
        cases n with
        | zero => simp
        | succ m =>
          exfalso
          rw [windowEvents] at hget
          rw [List.getElem?_cons_succ] at hget
          have hmem := List.getElem?_mem hget
          obtain ⟨it, out, heq⟩ :=
            windowEvents_tail_settles oracle sched ((files.drop i).take K) _ hmem
          exact Event.noConfusion heq
      · push_neg at hn
        rw [List.getElem?_append_right hn] at hget
        rw [foldl_take_append]
        have hfull : (windowEvents oracle sched ((files.drop i).take K)).take n =
            windowEvents oracle sched ((files.drop i).take K) :=
          List.take_of_length_le hn
        rw [hfull, foldl_outStep_windowEvents oracle sched _ (hsched _)]
        set dl := (if i + K < files.length then [Event.interDelay bd] else []) with hdldef
        have hdl : ∀ ev ∈ dl, ∃ d, ev = Event.interDelay d := by
          rw [hdldef]; split <;> simp
        by_cases hn2 : n - (windowEvents oracle sched ((files.drop i).take K)).length <
            dl.length
        · exfalso
          rw [List.getElem?_append_left hn2] at hget
          have hmem := List.getElem?_mem hget
          obtain ⟨d, heq⟩ := hdl _ hmem
          exact Event.noConfusion heq
        · push_neg at hn2
          rw [List.getElem?_append_right hn2] at hget
          rw [foldl_take_append, foldl_outStep_delays _ hdl]
          exact ih (i + K) _ w (by omega) hget
    · simp [processLoopFuel, h] at hget

/-- Every inter-window delay event of the loop carries the configured
`batchDelay`. -/
theorem processLoopFuel_delay_val (K bd : Nat) (oracle : String → Outcome)
    (sched : List String → List String) (files : List String) :
    ∀ fuel i d, Event.interDelay d ∈ processLoopFuel K bd oracle sched files fuel i →
      d = bd := by
  intro fuel
  induction fuel with
  | zero =>
    intro i d hmem
    simp [processLoopFuel] at hmem
  | succ fuel ih =>
    intro i d hmem
    simp only [processLoopFuel] at hmem
    by_cases h : i < files.length ∧ 0 < K
    · rw [if_pos h] at hmem
      rcases List.mem_append.mp hmem with hwin | hrest
      · exfalso
        rw [windowEvents] at hwin
        rcases List.mem_cons.mp hwin with heq | hmap
        · exact Event.noConfusion heq
        · obtain ⟨it, out, heq⟩ :=
            windowEvents_tail_settles oracle sched _ _ hmap
          exact Event.noConfusion heq
      · rcases List.mem_append.mp hrest with hdel | hrec
        · revert hdel
          split
          · intro hdel
            rcases List.mem_singleton.mp hdel with heq
            exact (Event.interDelay.injEq d bd).mp heq
          · intro hdel
            simp at hdel
        · exact ih (i + K) d hrec
    · rw [if_neg h] at hmem
      simp at hmem

/-! ### Aggregator fold lemmas -/

/-- Effect of a trace on the counters: each settle event adds exactly one
to `processedCount` and exactly one record to `results ++ errors`;
`totalCount` never changes. -/
theorem foldl_applyEvent_counts (tr : List Event) :
    ∀ s0 : RunState,
      (tr.foldl applyEvent s0).processedCount = s0.processedCount + countSettles tr ∧
      (tr.foldl applyEvent s0).results.length + (tr.foldl applyEvent s0).errors.length =
        s0.results.length + s0.errors.length + countSettles tr ∧
      (tr.foldl applyEvent s0).totalCount = s0.totalCount := by
  induction tr with
  | nil =>
    intro s0
    simp [countSettles]
  | cons ev rest ih =>
    intro s0
    rw [List.foldl_cons]
    have hc : countSettles (ev :: rest) = countSettles [ev] + countSettles rest := by
      rw [← countSettles_append]
      rfl
    obtain ⟨h1, h2, h3⟩ := ih (applyEvent s0 ev)
    refine ⟨?_, ?_, ?_⟩
    · rw [h1, hc]
      cases ev with
      | dispatch w => simp [applyEvent, countSettles]
      | interDelay d => simp [applyEvent, countSettles]
      | settle it out =>
        cases out <;> simp [applyEvent, countSettles] <;> omega
    · rw [h2, hc]
      cases ev with
      | dispatch w => simp [applyEvent, countSettles]
      | interDelay d => simp [applyEvent, countSettles]
      | settle it out =>
        cases out <;> simp [applyEvent, countSettles] <;> omega
    · rw [h3]
      cases ev with
      | dispatch w => rfl
      | interDelay d => rfl
      | settle it out => cases out <;> rfl

/-- Truncating a trace cannot increase its settle count. -/
theorem countSettles_take_le (tr : List Event) (n : Nat) :
    countSettles (tr.take n) ≤ countSettles tr := by
  conv_rhs => rw [← List.take_append_drop n tr]
  rw [countSettles_append]
  omega

/-- With a nonzero default, the `parseInt(x) || d` idiom never yields 0. -/
theorem jsOrInt_ne_zero (v : Option Int) (d : Int) (hd : d ≠ 0) :
    jsOrInt v d ≠ 0 := by
  cases v with
  | none => simpa [jsOrInt] using hd
  | some n =>
    by_cases hn : n = 0
    · simpa [jsOrInt, hn] using hd
    · simp [jsOrInt, hn]

/-! ### Claim theorems -/

/-- C1: for every run that reaches completion, `processedCount` equals
`totalCount` and equals `len(results) + len(errors)`; during the run
`processedCount` increases by exactly 1 per settled Outcome (it always
equals the number of settle events so far, and equals
`len(results) + len(errors)`) and never exceeds `totalCount`. -/
theorem claim_C1 (K bd : Nat) (oracle : String → Outcome)
    (sched : List String → List String) (files : List String)
    (hK : 0 < K) (hsched : ∀ w, (sched w).Perm w) :
    (∀ n,
      (stateAt K bd oracle sched files n).processedCount =
        countSettles ((processTrace K bd oracle sched files).take n) ∧
      (stateAt K bd oracle sched files n).processedCount =
        (stateAt K bd oracle sched files n).results.length +
          (stateAt K bd oracle sched files n).errors.length ∧
      (stateAt K bd oracle sched files n).processedCount ≤
        (stateAt K bd oracle sched files n).totalCount) ∧
    (stateAt K bd oracle sched files
      (processTrace K bd oracle sched files).length).processedCount = files.length ∧
    (stateAt K bd oracle sched files
        (processTrace K bd oracle sched files).length).results.length +
      (stateAt K bd oracle sched files
        (processTrace K bd oracle sched files).length).errors.length = files.length ∧
    (stateAt K bd oracle sched files
      (processTrace K bd oracle sched files).length).totalCount = files.length := by
  have hlen : ∀ w : List String, (sched w).length = w.length :=
    fun w => (hsched w).length_eq
  have htot : countSettles (processTrace K bd oracle sched files) = files.length := by
    have := processLoopFuel_countSettles K bd oracle sched files hK hlen
      files.length 0 (by omega)
    simpa [processTrace] using this
  have hmain : ∀ n,
      (stateAt K bd oracle sched files n).processedCount =
        countSettles ((processTrace K bd oracle sched files).take n) ∧
      (stateAt K bd oracle sched files n).processedCount =
        (stateAt K bd oracle sched files n).results.length +
          (stateAt K bd oracle sched files n).errors.length ∧
      (stateAt K bd oracle sched files n).totalCount = files.length := by
    intro n
    obtain ⟨h1, h2, h3⟩ := foldl_applyEvent_counts
      ((processTrace K bd oracle sched files).take n) (initState files.length)
    refine ⟨?_, ?_, ?_⟩
    · simpa [stateAt, initState] using h1
    · have hi1 : (initState files.length).processedCount = 0 := rfl
      have hi2 : (initState files.length).results.length = 0 := rfl
      have hi3 : (initState files.length).errors.length = 0 := rfl
      rw [stateAt, h1, h2, hi1, hi2, hi3]
    · simpa [stateAt, initState] using h3
  refine ⟨?_, ?_, ?_, ?_⟩
  · intro n
    obtain ⟨h1, h2, h3⟩ := hmain n
    refine ⟨h1, h2, ?_⟩
    rw [h1, h3]
    calc countSettles ((processTrace K bd oracle sched files).take n)
        ≤ countSettles (processTrace K bd oracle sched files) :=
          countSettles_take_le _ n
      _ = files.length := htot
  · obtain ⟨h1, _, _⟩ := hmain (processTrace K bd oracle sched files).length
    rw [h1, List.take_length, htot]
  · obtain ⟨h1, h2, _⟩ := hmain (processTrace K bd oracle sched files).length
    rw [← h2, h1, List.take_length, htot]
  · exact (hmain (processTrace K bd oracle sched files).length).2.2

/-- Witness for C1: the seven-item scenario with concurrency 3 in which
every item succeeds immediately, settling in dispatch order. -/
theorem claim_C1_witness :
    0 < 3 ∧
    (stateAt 3 100 exampleOracle id sevenFiles
      (processTrace 3 100 exampleOracle id sevenFiles).length).processedCount =
        sevenFiles.length := by
  refine ⟨by decide, ?_⟩
  exact (claim_C1 3 100 exampleOracle id sevenFiles (by decide)
    (fun w => List.Perm.refl w)).2.1

/-- C2: the retry wrapper attempts the combined encode-plus-remote call at
most `maxRetries + 1` times with a fixed `retryDelay` between attempts;
all attempts before the final one failed (the first success
short-circuits) and yield a Success Outcome built from the succeeding
response; if every attempt fails it resolves to a Failure Outcome carrying
the last attempt's error message; in every case it resolves to exactly one
`RetryRun` value (the embedding is a total function: the catch branch
returns rather than rethrows). -/
theorem claim_C2 (cfg : Config) (imagePath : String)
    (attempt : Nat → Except String ApiResponse) (now : String) :
    1 ≤ (analyzeImage cfg imagePath attempt now 0).attempts ∧
    (analyzeImage cfg imagePath attempt now 0).attempts ≤ cfg.maxRetries + 1 ∧
    (analyzeImage cfg imagePath attempt now 0).delays =
      List.replicate ((analyzeImage cfg imagePath attempt now 0).attempts - 1)
        cfg.retryDelay ∧
    (∀ j, j + 1 < (analyzeImage cfg imagePath attempt now 0).attempts →
      ∃ e, attempt j = Except.error e) ∧
    ((∃ resp,
        attempt ((analyzeImage cfg imagePath attempt now 0).attempts - 1) =
          Except.ok resp ∧
        (analyzeImage cfg imagePath attempt now 0).outcome =
          Outcome.success (successOf imagePath resp now)) ∨
      ((analyzeImage cfg imagePath attempt now 0).attempts = cfg.maxRetries + 1 ∧
        ∃ e, attempt cfg.maxRetries = Except.error e ∧
          (analyzeImage cfg imagePath attempt now 0).outcome =
            Outcome.failure (failureOf imagePath e now))) := by
  simp only [analyzeImage, Nat.sub_zero]
  refine ⟨analyzeImageGo_attempts_pos cfg imagePath attempt now cfg.maxRetries 0,
    analyzeImageGo_attempts_le cfg imagePath attempt now cfg.maxRetries 0,
    analyzeImageGo_delays cfg imagePath attempt now cfg.maxRetries 0, ?_, ?_⟩
  · intro j hj
    have := analyzeImageGo_earlier_fail cfg imagePath attempt now cfg.maxRetries 0 j hj
    simpa using this
  · have := analyzeImageGo_final cfg imagePath attempt now cfg.maxRetries 0
    simpa using this

/-- Witness for C2: an attempt oracle failing twice then succeeding, under
the default configuration (`maxRetries = 3`). -/
theorem claim_C2_witness :
    1 ≤ (analyzeImage cfgWithKey "img.png" exampleAttempt "T" 0).attempts ∧
    (analyzeImage cfgWithKey "img.png" exampleAttempt "T" 0).attempts ≤
      cfgWithKey.maxRetries + 1 := by
  have h := claim_C2 cfgWithKey "img.png" exampleAttempt "T"
  exact ⟨h.1, h.2.1⟩

/-- C3: the scheduler partitions a non-empty item list, in input order,
into consecutive windows of exactly `concurrency` items (last window
possibly smaller); the dispatched windows are exactly those slices (so no
item is dispatched twice), each inter-window delay carries the fixed
`batchDelay`, there is exactly one fewer delay than windows (the delay is
skipped after the final window), and at each dispatch event no call of an
earlier window is still in flight. -/
theorem claim_C3 (K bd : Nat) (oracle : String → Outcome)
    (sched : List String → List String) (files : List String)
    (hK : 0 < K) (hne : files ≠ []) (hsched : ∀ w, (sched w).Perm w) :
    dispatchedWindows (processTrace K bd oracle sched files) = chunkWindows K files ∧
    (chunkWindows K files).flatten = files ∧
    (∀ w ∈ chunkWindows K files, w ≠ [] ∧ w.length ≤ K) ∧
    (∀ w ∈ (chunkWindows K files).dropLast, w.length = K) ∧
    chunkWindows K files ≠ [] ∧
    delayCount (processTrace K bd oracle sched files) =
      (chunkWindows K files).length - 1 ∧
    (∀ d, Event.interDelay d ∈ processTrace K bd oracle sched files → d = bd) ∧
    (∀ n w, (processTrace K bd oracle sched files)[n]? = some (Event.dispatch w) →
      outstandingAfter ((processTrace K bd oracle sched files).take n) = 0) := by
  have hlen : ∀ w : List String, (sched w).length = w.length :=
    fun w => (hsched w).length_eq
  refine ⟨?_, ?_, ?_, ?_, ?_, ?_, ?_, ?_⟩
  · have := processLoopFuel_windows K bd oracle sched files hK files.length 0 (by omega)
    simpa [processTrace] using this
  · exact chunkWindows_join K hK files.length files (Nat.le_refl _)
  · exact chunkWindows_sizes K hK files.length files (Nat.le_refl _)
  · exact chunkWindows_dropLast K hK files.length files (Nat.le_refl _)
  · exact chunkWindows_ne_nil K files hK hne
  · have := processLoopFuel_delayCount K bd oracle sched files hK files.length 0 (by omega)
    simpa [processTrace] using this
  · intro d hd
    exact processLoopFuel_delay_val K bd oracle sched files files.length 0 d hd
  · intro n w hget
    exact processLoopFuel_dispatch_zero K bd oracle sched files hK hlen
      files.length 0 n w (by omega) hget

/-- Witness for C3: 7 items with concurrency 3 give windows of sizes
3, 3, 1 and exactly two inter-window delays. -/
theorem claim_C3_witness :
    0 < 3 ∧ sevenFiles ≠ [] ∧
    delayCount (processTrace 3 100 exampleOracle id sevenFiles) =
      (chunkWindows 3 sevenFiles).length - 1 ∧
    (chunkWindows 3 sevenFiles).length - 1 = 2 ∧
    (chunkWindows 3 sevenFiles).map List.length = [3, 3, 1] := by
  refine ⟨by decide, by decide, ?_, by decide, by decide⟩
  exact (claim_C3 3 100 exampleOracle id sevenFiles (by decide) (by decide)
    (fun w => List.Perm.refl w)).2.2.2.2.2.1

/-- C4: with `concurrency = K`, at no point of a run's trace are more
than `K` remote analysis calls in flight simultaneously; the bound comes
structurally from the window dispatch. -/
theorem claim_C4 (K bd : Nat) (oracle : String → Outcome)
    (sched : List String → List String) (files : List String)
    (hK : 0 < K) (hsched : ∀ w, (sched w).Perm w) :
    ∀ n, outstandingAfter ((processTrace K bd oracle sched files).take n) ≤ K := by
  intro n
  have hlen : ∀ w : List String, (sched w).length = w.length :=
    fun w => (hsched w).length_eq
  exact processLoopFuel_outstanding K bd oracle sched files hK hlen
    files.length 0 n (by omega)

/-- Witness for C4: two events into the seven-item run at concurrency 3,
at most 3 calls are in flight. -/
theorem claim_C4_witness :
    0 < 3 ∧
    outstandingAfter ((processTrace 3 100 exampleOracle id sevenFiles).take 2) ≤ 3 :=
  ⟨by decide, claim_C4 3 100 exampleOracle id sevenFiles (by decide)
    (fun w => List.Perm.refl w) 2⟩

/-- C5: a run over a directory with zero matching files completes normally
with exit code 0 and no fatal line, leaves `totalCount = 0`, empty
`results`/`errors` collections, a zero `processedCount`, and writes no
artifact. -/
theorem claim_C5 (cfg : Config) (readdir : Except String (List String))
    (oracle : String → Outcome) (sched : List String → List String)
    (now : String) (writeRes : Except String Unit)
    (hkey : apiKeyFalsy cfg.apiKey = false)
    (hempty : getImageFiles cfg readdir = Except.ok []) :
    process cfg readdir oracle sched now writeRes =
      (Except.ok { state := initState 0, saved := none }, []) ∧
    main cfg readdir oracle sched now writeRes = (0, none) ∧
    (initState 0).totalCount = 0 ∧ (initState 0).results = [] ∧
    (initState 0).errors = [] ∧ (initState 0).processedCount = 0 := by
  have hp : process cfg readdir oracle sched now writeRes =
      (Except.ok { state := initState 0, saved := none }, []) := by
    simp [process, hkey, hempty]
  exact ⟨hp, by simp [main, hp], rfl, rfl, rfl, rfl⟩

/-- Witness for C5: a directory containing only `notes.txt`. -/
theorem claim_C5_witness :
    apiKeyFalsy cfgWithKey.apiKey = false ∧
    getImageFiles cfgWithKey (Except.ok ["notes.txt"]) = Except.ok [] ∧
    main cfgWithKey (Except.ok ["notes.txt"]) exampleOracle id "T" (Except.ok ()) =
      (0, none) := by
  refine ⟨by decide, rfl, ?_⟩
  exact (claim_C5 cfgWithKey (Except.ok ["notes.txt"]) exampleOracle id "T"
    (Except.ok ()) (by decide) rfl).2.1

/-- C6: the artifact persisted by every completed run re-parses to itself,
and its `metadata.totalImages`, `metadata.successfulCount` and
`metadata.errorCount` equal `totalCount`, `len(results)` and `len(errors)`
of the final run state, with the `results` and `errors` arrays being the
accumulated collections themselves. -/
theorem claim_C6 (cfg : Config) (readdir : Except String (List String))
    (oracle : String → Outcome) (sched : List String → List String)
    (now : String) (writeRes : Except String Unit) (r : ProcessOk) (a : Artifact)
    (hok : (process cfg readdir oracle sched now writeRes).1 = Except.ok r)
    (hsaved : r.saved = some a) :
    decodeArtifact (encodeArtifact a) = some a ∧
    a.metadata.totalImages = r.state.totalCount ∧
    a.metadata.successfulCount = r.state.results.length ∧
    a.metadata.errorCount = r.state.errors.length ∧
    a.results = r.state.results ∧
    a.errors = r.state.errors := by
  by_cases hkey : apiKeyFalsy cfg.apiKey
  · simp [process, hkey] at hok
  · cases hread : getImageFiles cfg readdir with
    | error e =>
      rw [process] at hok
      simp [hkey, hread] at hok
    | ok imageFiles =>
      by_cases hzero : imageFiles.length = 0
      · rw [process] at hok
        simp [hkey, hread, hzero] at hok
        rw [← hok] at hsaved
        simp at hsaved
      · cases hw : writeRes with
        | error e =>
          rw [process] at hok
          simp [hkey, hread, hzero, hw] at hok
        | ok u =>
          rw [process] at hok
          simp [hkey, hread, hzero, hw] at hok
          rw [← hok] at hsaved
          simp at hsaved
          subst hsaved
          rw [← hok]
          exact ⟨decodeArtifact_encodeArtifact _, rfl, rfl, rfl, rfl, rfl⟩

/-- Witness for C6: a one-item run whose item succeeds immediately. -/
theorem claim_C6_witness :
    (process cfgWithKey (Except.ok ["a.jpg"]) exampleOracle id "T" (Except.ok ())).1 =
      Except.ok exampleOk ∧
    exampleOk.saved = some exampleArtifact ∧
    decodeArtifact (encodeArtifact exampleArtifact) = some exampleArtifact ∧
    exampleArtifact.metadata.totalImages = exampleOk.state.totalCount := by
  have h := claim_C6 cfgWithKey (Except.ok ["a.jpg"]) exampleOracle id "T"
    (Except.ok ()) exampleOk exampleArtifact rfl rfl
  exact ⟨rfl, rfl, h.1, h.2.1⟩

/-- C7: an absent API key or an unlistable images directory aborts the run
with the printed fatal message and exit code 1 before any item is
processed (the trace is empty, so no Outcome is settled); conversely, when
the key is present, the directory listing succeeds and the artifact write
succeeds, the run completes for every per-item outcome oracle — per-item
failures never abort the batch. -/
theorem claim_C7 (cfg : Config) (readdir : Except String (List String))
    (oracle : String → Outcome) (sched : List String → List String)
    (now : String) (writeRes : Except String Unit) :
    (apiKeyFalsy cfg.apiKey = true →
      process cfg readdir oracle sched now writeRes =
        (Except.error "OPENAI_API_KEY is not set in environment variables", []) ∧
      countSettles (process cfg readdir oracle sched now writeRes).2 = 0 ∧
      main cfg readdir oracle sched now writeRes =
        (1, some "❌ Fatal error: OPENAI_API_KEY is not set in environment variables")) ∧
    (∀ e, apiKeyFalsy cfg.apiKey = false → readdir = Except.error e →
      process cfg readdir oracle sched now writeRes =
        (Except.error ("Failed to read images directory: " ++ e), []) ∧
      countSettles (process cfg readdir oracle sched now writeRes).2 = 0 ∧
      main cfg readdir oracle sched now writeRes =
        (1, some ("❌ Fatal error: " ++ ("Failed to read images directory: " ++ e)))) ∧
    (∀ l, apiKeyFalsy cfg.apiKey = false → readdir = Except.ok l →
      writeRes = Except.ok () →
      ∃ pr, (process cfg readdir oracle sched now writeRes).1 = Except.ok pr) := by
  refine ⟨?_, ?_, ?_⟩
  · intro hkey
    have hp : process cfg readdir oracle sched now writeRes =
        (Except.error "OPENAI_API_KEY is not set in environment variables", []) := by
      simp [process, hkey]
    exact ⟨hp, by simp [hp, countSettles], by simp [main, hp]⟩
  · intro e hkey hrd
    subst hrd
    have hp : process cfg (Except.error e) oracle sched now writeRes =
        (Except.error ("Failed to read images directory: " ++ e), []) := by
      simp [process, hkey, getImageFiles]
    exact ⟨hp, by simp [hp, countSettles], by simp [main, hp]⟩
  · intro l hkey hrd hw
    subst hrd
    subst hw
    cases hgf : getImageFiles cfg (Except.ok l) with
    | error e =>
      rw [getImageFiles] at hgf
      exact absurd hgf (by simp)
    | ok fl =>
      rw [process, if_neg (by simp [hkey]), hgf]
      dsimp only
      by_cases hzero : fl.length = 0
      · rw [if_pos hzero]
        exact ⟨_, rfl⟩
      · rw [if_neg hzero]
        exact ⟨_, rfl⟩

/-- Witness for C7: the empty environment has no API key, and the run
aborts with the configuration fatal error and an empty trace. -/
theorem claim_C7_witness :
    apiKeyFalsy cfgNoKey.apiKey = true ∧
    process cfgNoKey (Except.ok []) exampleOracle id "T" (Except.ok ()) =
      (Except.error "OPENAI_API_KEY is not set in environment variables", []) := by
  refine ⟨by decide, ?_⟩
  exact ((claim_C7 cfgNoKey (Except.ok []) exampleOracle id "T"
    (Except.ok ())).1 (by decide)).1

/-- Counterexample for C8 as stated: the persisted success object has no
`modelUsed` or `completedAt` key (the code writes `model` and `timestamp`,
plus a `success` tag), and the persisted failure object has no
`errorMessage` key (the code writes `error`). -/
theorem claim_C8_counterexample :
    Json.keys (encodeSuccess exampleSuccess) ≠
      ["image", "path", "description", "modelUsed", "usage", "completedAt"] ∧
    "modelUsed" ∉ Json.keys (encodeSuccess exampleSuccess) ∧
    "completedAt" ∉ Json.keys (encodeSuccess exampleSuccess) ∧
    "success" ∈ Json.keys (encodeSuccess exampleSuccess) ∧
    "errorMessage" ∉ Json.keys (encodeFailure exampleFailure) ∧
    "error" ∈ Json.keys (encodeFailure exampleFailure) := by
  refine ⟨by decide, by decide, by decide, by decide, by decide, by decide⟩

/-- C8 as amended: every persisted success record has exactly the fields
`image, path, success, description, model, usage, timestamp` (in source
order), every failure record exactly `image, path, success, error,
timestamp`, the usage object carries the provider's
`prompt_tokens, completion_tokens, total_tokens`, and the artifact
document has exactly the top-level keys `metadata, results, errors`. -/
theorem claim_C8 (s : SuccessRecord) (f : FailureRecord) (u : Usage)
    (cfg : Config) (st : RunState) (now : String) :
    Json.keys (encodeSuccess s) =
      ["image", "path", "success", "description", "model", "usage", "timestamp"] ∧
    Json.keys (encodeFailure f) =
      ["image", "path", "success", "error", "timestamp"] ∧
    Json.keys (encodeUsage u) =
      ["prompt_tokens", "completion_tokens", "total_tokens"] ∧
    Json.keys (encodeArtifact (saveResults cfg st now)) =
      ["metadata", "results", "errors"] :=
  ⟨rfl, rfl, rfl, rfl⟩

/-- Counterexample for C9 as stated: supplying `MAX_RETRIES=7` and
`RETRY_DELAY=50` in the environment changes nothing — `CONFIG` still
carries the constants 3 and 2000, diverging from the spec's
configuration-surface reading. -/
theorem claim_C9_counterexample :
    envRetryOverride.MAX_RETRIES = some "7" ∧
    envRetryOverride.RETRY_DELAY = some "50" ∧
    (mkCONFIG envRetryOverride).maxRetries = 3 ∧
    (mkCONFIG envRetryOverride).retryDelay = 2000 ∧
    specSurfaceMaxRetries envRetryOverride = 7 ∧
    specSurfaceRetryDelay envRetryOverride = 50 ∧
    Int.ofNat (mkCONFIG envRetryOverride).maxRetries ≠
      specSurfaceMaxRetries envRetryOverride ∧
    Int.ofNat (mkCONFIG envRetryOverride).retryDelay ≠
      specSurfaceRetryDelay envRetryOverride := by
  refine ⟨rfl, rfl, rfl, rfl, by decide, by decide, by decide, by decide⟩

/-- C9 as amended: `maxRetries` and `retryDelay` are fixed constants 3 and
2000 in `CONFIG`, with no environment override; the retry wrapper consumes
them from the config object (its attempt count is bounded by
`cfg.maxRetries + 1` and each inter-attempt delay equals
`cfg.retryDelay`). -/
theorem claim_C9 (env : Env) (cfg : Config) (imagePath : String)
    (attempt : Nat → Except String ApiResponse) (now : String) :
    (mkCONFIG env).maxRetries = 3 ∧
    (mkCONFIG env).retryDelay = 2000 ∧
    (analyzeImage cfg imagePath attempt now 0).attempts ≤ cfg.maxRetries + 1 ∧
    (analyzeImage cfg imagePath attempt now 0).delays =
      List.replicate ((analyzeImage cfg imagePath attempt now 0).attempts - 1)
        cfg.retryDelay := by
  refine ⟨rfl, rfl, ?_, ?_⟩
  · simpa [analyzeImage, Nat.sub_zero] using
      analyzeImageGo_attempts_le cfg imagePath attempt now cfg.maxRetries 0
  · simpa [analyzeImage, Nat.sub_zero] using
      analyzeImageGo_delays cfg imagePath attempt now cfg.maxRetries 0

/-- C10: for `maxTokens`, `concurrency` and `batchDelay`, an environment
value parsing to 0 or failing to parse is silently replaced by the
default (500, 5, 1000), and none of the three can ever be configured
to 0. -/
theorem claim_C10 (env : Env) :
    ((parseIntJS env.MAX_TOKENS = some 0 ∨ parseIntJS env.MAX_TOKENS = none) →
      (mkCONFIG env).maxTokens = 500) ∧
    ((parseIntJS env.CONCURRENCY = some 0 ∨ parseIntJS env.CONCURRENCY = none) →
      (mkCONFIG env).concurrency = 5) ∧
    ((parseIntJS env.BATCH_DELAY = some 0 ∨ parseIntJS env.BATCH_DELAY = none) →
      (mkCONFIG env).batchDelay = 1000) ∧
    (mkCONFIG env).maxTokens ≠ 0 ∧
    (mkCONFIG env).concurrency ≠ 0 ∧
    (mkCONFIG env).batchDelay ≠ 0 := by
  refine ⟨?_, ?_, ?_, jsOrInt_ne_zero _ _ (by decide),
    jsOrInt_ne_zero _ _ (by decide), jsOrInt_ne_zero _ _ (by decide)⟩
  · rintro (h | h) <;> simp [mkCONFIG, jsOrInt, h]
  · rintro (h | h) <;> simp [mkCONFIG, jsOrInt, h]
  · rintro (h | h) <;> simp [mkCONFIG, jsOrInt, h]

/-- Witness for C10: `MAX_TOKENS=0`, `CONCURRENCY=abc` and
`BATCH_DELAY=0x0` all fall back to their defaults. -/
theorem claim_C10_witness :
    (parseIntJS envZeroNumeric.MAX_TOKENS = some 0 ∨
      parseIntJS envZeroNumeric.MAX_TOKENS = none) ∧
    (mkCONFIG envZeroNumeric).maxTokens = 500 ∧
    (mkCONFIG envZeroNumeric).concurrency = 5 ∧
    (mkCONFIG envZeroNumeric).batchDelay = 1000 := by
  have h := claim_C10 envZeroNumeric
  exact ⟨Or.inl (by decide), h.1 (Or.inl (by decide)), h.2.1 (Or.inr (by decide)),
    h.2.2.1 (Or.inl (by decide))⟩

end ImageRec
